import Mathlib

/-!
Verification of the vector-store core of a small retrieval-augmented
generation codebase.  Two index variants are modelled from the source:

* `SimpleRag.VectorStore` (exercise_1_simple-rag-system/src/vector_store.py):
  an in-memory exact index that stores raw embeddings and scores them with
  cosine similarity at query time.
* `PdfRag.VectorStore` (exercise_2_pdf-rag-system/src/vector_store.py):
  an index that normalizes embeddings on insertion and delegates
  inner-product search to a faiss `IndexFlatIP`; the faiss structure and the
  two persistence artifacts are modelled explicitly.

Python floats are modelled as real numbers.  In the one place where an
IEEE-754 non-finite value is observable in the claims — numpy's division of
a vector by its (possibly zero) Euclidean norm — scalars are modelled as
`Option ℝ`: `some x` is the finite value `x` and `none` is the non-finite
result (NaN) that `0.0 / 0.0` produces.  Methods are modelled in
state-passing style: each method takes the receiver state and returns its
result together with the state after the call; a Python exception is an
`Except.error` (for `load`, an `Option String`, since that method can fail
after having mutated part of the state).
-/

/-- The value numpy's dot returns on two equal-length 1-D float arrays:
the sum of the products.  On mismatched lengths numpy raises a ValueError
instead of returning a value; SimpleRag.npDot below carries that error
path, and every theorem stated directly in terms of dot carries an
equal-length hypothesis keeping it on the domain where the two agree. -/
def dot (a b : List ℝ) : ℝ := (List.zipWith (fun x y => x * y) a b).sum

/-- Euclidean norm as computed by numpy's linalg.norm: the square root of
the sum of the squares of the entries. -/
noncomputable def npNorm (a : List ℝ) : ℝ :=
  Real.sqrt ((a.map (fun x => x * x)).sum)

/-- Python list slicing from the front, l sliced up to k.  A nonnegative k
keeps the first k elements (all of them when k exceeds the length); a
negative k drops the last k-many elements. -/
def pyTake {α : Type _} (k : Int) (l : List α) : List α :=
  if 0 ≤ k then l.take k.toNat else l.take (l.length - (-k).toNat)

/-- One insertion step of the stable descending sort below: x is placed in
front of the first element it strictly beats, i.e. after every element
whose key is at least key x. -/
noncomputable def insertDescBy {α : Type _} (key : α → ℝ) (x : α) :
    List α → List α
  | [] => [x]
  | y :: ys => if key y < key x then x :: y :: ys else y :: insertDescBy key x ys

/-- Stable sort by descending key, modelling Python's list sort with a key
function and reverse set: elements with equal keys keep their original
relative order. -/
noncomputable def sortDescBy {α : Type _} (key : α → ℝ) (l : List α) : List α :=
  l.foldl (fun acc x => insertDescBy key x acc) []

namespace SimpleRag

/-- A stored record of the exact index (the Document dataclass).  Ids are
the successive values of the store's counter. -/
structure Document where
  id : ℕ
  text : String
  embedding : List ℝ
  metadata : List (String × String)

/-- State of the exact index: the stored records and the id counter. -/
structure VectorStore where
  documents : List Document
  next_id : ℕ

/-- A freshly constructed store: no documents, counter at zero. -/
def VectorStore.empty : VectorStore := { documents := [], next_id := 0 }

/-- The add method: builds a Document carrying the current counter value
and the given fields (a missing metadata argument defaults to the empty
mapping), appends it, increments the counter and returns the new id.  No
validation of the embedding is performed. -/
def VectorStore.add (s : VectorStore) (text : String) (embedding : List ℝ)
    (metadata : Option (List (String × String))) : ℕ × VectorStore :=
  (s.next_id,
   { documents := s.documents ++
       [{ id := s.next_id, text := text, embedding := embedding,
          metadata := metadata.getD [] }],
     next_id := s.next_id + 1 })

/-- The cosine-similarity helper of the exact index: dot product divided by
the product of the two Euclidean norms, with the guard returning 0.0 when
either norm is zero. -/
noncomputable def cosine_similarity (vec1 vec2 : List ℝ) : ℝ :=
  if npNorm vec1 = 0 ∨ npNorm vec2 = 0 then 0
  else dot vec1 vec2 / (npNorm vec1 * npNorm vec2)

/-- The search method on the equal-length domain: an empty store returns
the empty list; otherwise every document is paired with its cosine
similarity to the query, the pairs are sorted by descending score
(Python's stable sort) and the top_k slice is kept.  The store itself is
returned unchanged: the method mutates no field of self.  searchChecked
below carries the ValueError path of the similarity loop and agrees with
this definition whenever every stored embedding has the query's length. -/
noncomputable def VectorStore.search (s : VectorStore) (query_embedding : List ℝ)
    (top_k : Int) : List (Document × ℝ) × VectorStore :=
  if s.documents.isEmpty then ([], s)
  else
    (pyTake top_k (sortDescBy (fun p => p.2)
      (s.documents.map (fun doc => (doc, cosine_similarity query_embedding doc.embedding)))),
     s)

/-- numpy's dot with its error path: on two 1-D operands of different
lengths np.dot raises a ValueError before any arithmetic; on equal
lengths it returns the sum of products. -/
def npDot (a b : List ℝ) : Except String ℝ :=
  if a.length = b.length then Except.ok (dot a b)
  else Except.error "ValueError: shapes not aligned"

/-- The cosine-similarity helper with numpy's error path made explicit:
the method calls np.dot first, so mismatched operands raise before the
norms and the zero-norm guard are reached; on equal-length operands the
returned value is exactly cosine_similarity. -/
noncomputable def cosine_similarity_checked (vec1 vec2 : List ℝ) :
    Except String ℝ :=
  match npDot vec1 vec2 with
  | Except.error e => Except.error e
  | Except.ok dp =>
    Except.ok (if npNorm vec1 = 0 ∨ npNorm vec2 = 0 then 0
      else dp / (npNorm vec1 * npNorm vec2))

/-- The similarity loop of the search method: one pair per document in
insertion order, computed before any sorting or slicing; the first
document whose embedding length mismatches the query aborts the whole
call. -/
noncomputable def simList (query_embedding : List ℝ) :
    List Document → Except String (List (Document × ℝ))
  | [] => Except.ok []
  | d :: ds =>
    match cosine_similarity_checked query_embedding d.embedding with
    | Except.error e => Except.error e
    | Except.ok sim =>
      match simList query_embedding ds with
      | Except.error e => Except.error e
      | Except.ok rest => Except.ok ((d, sim) :: rest)

/-- The search method with the similarity loop's error path kept: an
empty store returns the empty list at once; otherwise every similarity is
computed before sorting and slicing, so a ValueError from any stored
document aborts the call with no result list; when all lengths agree the
result is the sorted, sliced list of search.  The store is returned
unchanged on every path. -/
noncomputable def VectorStore.searchChecked (s : VectorStore)
    (query_embedding : List ℝ) (top_k : Int) :
    Except String (List (Document × ℝ)) × VectorStore :=
  if s.documents.isEmpty then (Except.ok [], s)
  else
    match simList query_embedding s.documents with
    | Except.error e => (Except.error e, s)
    | Except.ok similarities =>
      (Except.ok (pyTake top_k (sortDescBy (fun p => p.2) similarities)), s)

end SimpleRag

namespace PdfRag

/-- numpy float division as it occurs in row normalization: dividing by a
nonzero norm is exact real division; dividing by a zero norm yields a
non-finite value, modelled as none.  (When the norm of a row is zero every
component of the row is zero, so the quotient is 0.0 divided by 0.0, which
numpy evaluates to NaN with a RuntimeWarning — it does not raise.) -/
noncomputable def npDiv (x y : ℝ) : Option ℝ := if y = 0 then none else some (x / y)

/-- Row normalization, embedding divided by its Euclidean norm: each
component is divided by the row's norm. -/
noncomputable def normalizeRow (v : List ℝ) : List (Option ℝ) :=
  v.map (fun x => npDiv x (npNorm v))

/-- One stored record of the normalized index: the dict with text and
metadata keys kept in self.documents. -/
structure DocRec where
  text : String
  metadata : List (String × String)

/-- Model of faiss IndexFlatIP: the configured dimension and the stored
rows, in insertion order. -/
structure IndexFlatIP where
  d : ℕ
  vecs : List (List (Option ℝ))

/-- The ntotal field of the faiss index: how many rows it holds. -/
def IndexFlatIP.ntotal (ix : IndexFlatIP) : ℕ := ix.vecs.length

/-- Models the add method of faiss IndexFlatIP: the Python wrapper asserts
that the rows have the index dimension and then appends them; on a
mismatch it raises before anything is stored. -/
def IndexFlatIP.addRows (ix : IndexFlatIP) (rows : List (List (Option ℝ))) :
    Except String IndexFlatIP :=
  if ∀ r ∈ rows, r.length = ix.d then
    Except.ok { ix with vecs := ix.vecs ++ rows }
  else Except.error "IndexFlatIP.add: vector dimension mismatch"

/-- Multiplication with NaN propagation: a non-finite factor poisons the
product, as in IEEE arithmetic. -/
def optMul : Option ℝ → Option ℝ → Option ℝ
  | some a, some b => some (a * b)
  | _, _ => none

/-- Addition with NaN propagation. -/
def optAdd : Option ℝ → Option ℝ → Option ℝ
  | some a, some b => some (a + b)
  | _, _ => none

/-- Inner product of a stored row with the (normalized) query row. -/
def optDot (a b : List (Option ℝ)) : Option ℝ :=
  (List.zipWith optMul a b).foldr optAdd (some 0)

/-- Every stored row paired with its faiss row id and its inner-product
score against the query.  Rows whose score is non-finite (NaN) are dropped
here: a NaN comparison never beats the selection threshold in the faiss
heap, so such rows are never selected. -/
def scoreAll (vecs : List (List (Option ℝ))) (query : List (Option ℝ)) :
    List (Int × ℝ) :=
  vecs.enum.filterMap (fun p =>
    match optDot p.2 query with
    | some sc => some ((p.1 : Int), sc)
    | none => none)

/-- Pads a result list to the k slots faiss reports: unused slots carry the
sentinel id -1 (whose reported score the caller discards, so its value
here is irrelevant). -/
def padTo (k : ℕ) (l : List (Int × ℝ)) : List (Int × ℝ) :=
  l ++ List.replicate (k - l.length) ((-1 : Int), 0)

/-- Models the search method of faiss IndexFlatIP on a single query row:
faiss requires a positive k and a query of the index dimension; it returns
k pairs of id and score, the best finite-scored rows first in descending
score order, the unused slots padded with the sentinel id -1. -/
noncomputable def IndexFlatIP.searchRow (ix : IndexFlatIP)
    (query : List (Option ℝ)) (k : Int) : Except String (List (Int × ℝ)) :=
  if k ≤ 0 then Except.error "IndexFlatIP.search: k must be positive"
  else if query.length ≠ ix.d then
    Except.error "IndexFlatIP.search: query dimension mismatch"
  else
    Except.ok (padTo k.toNat
      ((sortDescBy (fun q => q.2) (scoreAll ix.vecs query)).take k.toNat))

/-- State of the normalized index: the configured dimension, the faiss
structure and the sidecar document list. -/
structure VectorStore where
  dimension : ℕ
  index : IndexFlatIP
  documents : List DocRec

/-- The constructor: an empty faiss IndexFlatIP of the given dimension and
no documents. -/
def VectorStore.mk0 (dimension : ℕ) : VectorStore :=
  { dimension := dimension, index := { d := dimension, vecs := [] }, documents := [] }

/-- The add method: normalizes the embedding, adds the single row to the
faiss index (which rejects a wrong-length row, leaving the store
untouched), then appends the record of text and metadata (a missing
metadata argument defaults to the empty mapping) and returns its
position. -/
noncomputable def VectorStore.add (s : VectorStore) (text : String)
    (embedding : List ℝ) (metadata : Option (List (String × String))) :
    Except String ℕ × VectorStore :=
  match s.index.addRows [normalizeRow embedding] with
  | Except.error e => (Except.error e, s)
  | Except.ok ix =>
    (Except.ok s.documents.length,
     { s with
         index := ix,
         documents := s.documents ++ [{ text := text, metadata := metadata.getD [] }] })

/-- The add_batch method: normalizes every row and adds all of them to the
faiss index; then a metadatas argument that is None or the empty list is
replaced by one empty mapping per text (Python truthiness), and the texts
are zipped with it — Python's zip stops at the shorter of the two lists. -/
noncomputable def VectorStore.add_batch (s : VectorStore) (texts : List String)
    (embeddings : List (List ℝ))
    (metadatas : Option (List (List (String × String)))) :
    Except String Unit × VectorStore :=
  match s.index.addRows (embeddings.map normalizeRow) with
  | Except.error e => (Except.error e, s)
  | Except.ok ix =>
    (Except.ok (),
     { s with
         index := ix,
         documents := s.documents ++
           (texts.zip (match metadatas with
             | none => List.replicate texts.length []
             | some l => if l.isEmpty then List.replicate texts.length [] else l)).map
             (fun p => ({ text := p.1, metadata := p.2 } : DocRec)) })

/-- The result loop of the search method: for each pair of score and id,
an id that is at least 0 indexes into self.documents — a Python IndexError
aborts the whole call if it is out of range — and sentinel ids are
skipped. -/
def gatherResults (docs : List DocRec) :
    List (Int × ℝ) → Except String (List (DocRec × ℝ))
  | [] => Except.ok []
  | p :: rest =>
    if 0 ≤ p.1 then
      match docs.get? p.1.toNat with
      | none => Except.error "IndexError: list index out of range"
      | some doc =>
        match gatherResults docs rest with
        | Except.error e => Except.error e
        | Except.ok rs => Except.ok ((doc, p.2) :: rs)
    else gatherResults docs rest

/-- The search method: an empty index returns the empty list at once;
otherwise the query is normalized like an inserted row and the faiss index
is searched with k clamped to the smaller of top_k and ntotal; the
returned ids are then resolved against self.documents.  The store is
returned unchanged: the method mutates no field of self. -/
noncomputable def VectorStore.search (s : VectorStore) (query_embedding : List ℝ)
    (top_k : Int) : Except String (List (DocRec × ℝ)) × VectorStore :=
  if s.index.ntotal = 0 then (Except.ok [], s)
  else
    match s.index.searchRow (normalizeRow query_embedding)
        (min top_k (s.index.ntotal : Int)) with
    | Except.error e => (Except.error e, s)
    | Except.ok pairs =>
      match gatherResults s.documents pairs with
      | Except.error e => (Except.error e, s)
      | Except.ok results => (Except.ok results, s)

/-- The two artifacts a saved store leaves in one directory: the binary
faiss file and the documents.json sidecar.  faiss write_index / read_index
and json dump / load are modelled as lossless codecs, so each artifact is
kept in decoded form; a missing file is none. -/
structure Dir where
  indexFile : Option IndexFlatIP
  docsFile : Option (List DocRec)

/-- The file system as seen through save and load: which artifacts are
found at each directory path. -/
abbrev FS := String → Dir

/-- The save method: creates the directory if needed and writes (or
overwrites) both artifacts there. -/
def VectorStore.save (s : VectorStore) (fs : FS) (path : String) : FS :=
  fun p =>
    if p = path then { indexFile := some s.index, docsFile := some s.documents }
    else fs p

/-- The load method, statement by statement: first faiss read_index — on a
missing binary file it raises and nothing has changed; its result is
assigned to self.index at once.  Only then is the sidecar opened — if that
file is missing the call raises with self.index already replaced and
self.documents still the old list.  On success both fields hold the loaded
artifacts. -/
def VectorStore.load (s : VectorStore) (fs : FS) (path : String) :
    Option String × VectorStore :=
  match (fs path).indexFile with
  | none => (some "read_index: could not open file", s)
  | some ix =>
    match (fs path).docsFile with
    | none => (some "FileNotFoundError: documents.json", { s with index := ix })
    | some docs => (none, { s with index := ix, documents := docs })

/-- The count method: the number of sidecar records. -/
def VectorStore.count (s : VectorStore) : ℕ := s.documents.length

/-- Representation invariant of a well-formed store: the faiss structure
has the configured dimension, holds one row per sidecar record, and every
row has that dimension.  A fresh store satisfies it. -/
def VectorStore.WF (s : VectorStore) : Prop :=
  s.index.d = s.dimension ∧ s.index.ntotal = s.documents.length ∧
    ∀ r ∈ s.index.vecs, r.length = s.index.d

end PdfRag

/-! ## Helper lemmas about the sorting and slicing primitives -/

theorem length_insertDescBy {α : Type _} (key : α → ℝ) (x : α) (l : List α) :
    (insertDescBy key x l).length = l.length + 1 := by
  induction l with
  | nil => rfl
  | cons y ys ih =>
    by_cases h : key y < key x
    · simp [insertDescBy, h]
    · simp [insertDescBy, h, ih]

theorem mem_insertDescBy {α : Type _} (key : α → ℝ) {z x : α} {l : List α} :
    z ∈ insertDescBy key x l ↔ z = x ∨ z ∈ l := by
  induction l with
  | nil => simp [insertDescBy]
  | cons y ys ih =>
    by_cases h : key y < key x
    · simp [insertDescBy, h, List.mem_cons]
    · simp [insertDescBy, h, List.mem_cons, ih]
      tauto

theorem pairwise_insertDescBy {α : Type _} (key : α → ℝ) {x : α} {l : List α}
    (h : l.Pairwise (fun a b => key b ≤ key a)) :
    (insertDescBy key x l).Pairwise (fun a b => key b ≤ key a) := by
  induction l with
  | nil => simp [insertDescBy]
  | cons y ys ih =>
    rcases List.pairwise_cons.mp h with ⟨hy, hys⟩
    by_cases hlt : key y < key x
    · rw [insertDescBy, if_pos hlt]
      refine List.pairwise_cons.mpr ⟨?_, h⟩
      intro z hz
      rcases List.mem_cons.mp hz with rfl | hz'
      · exact le_of_lt hlt
      · exact le_trans (hy z hz') (le_of_lt hlt)
    · rw [insertDescBy, if_neg hlt]
      refine List.pairwise_cons.mpr ⟨?_, ih hys⟩
      intro z hz
      rcases (mem_insertDescBy key).mp hz with rfl | hz'
      · exact le_of_not_lt hlt
      · exact hy z hz'

theorem length_foldl_insertDescBy {α : Type _} (key : α → ℝ) (l acc : List α) :
    (l.foldl (fun acc x => insertDescBy key x acc) acc).length =
      acc.length + l.length := by
  induction l generalizing acc with
  | nil => simp
  | cons x xs ih =>
    rw [List.foldl_cons, ih, length_insertDescBy]
    simp only [List.length_cons]
    omega

theorem length_sortDescBy {α : Type _} (key : α → ℝ) (l : List α) :
    (sortDescBy key l).length = l.length := by
  simpa using length_foldl_insertDescBy key l []

theorem mem_foldl_insertDescBy {α : Type _} (key : α → ℝ) {z : α} (l acc : List α) :
    z ∈ l.foldl (fun acc x => insertDescBy key x acc) acc ↔ z ∈ acc ∨ z ∈ l := by
  induction l generalizing acc with
  | nil => simp
  | cons x xs ih =>
    rw [List.foldl_cons, ih]
    simp [mem_insertDescBy key, List.mem_cons]
    tauto

theorem mem_sortDescBy {α : Type _} (key : α → ℝ) {z : α} (l : List α) :
    z ∈ sortDescBy key l ↔ z ∈ l := by
  rw [sortDescBy, mem_foldl_insertDescBy]
  simp

theorem pairwise_foldl_insertDescBy {α : Type _} (key : α → ℝ) (l : List α)
    {acc : List α} (h : acc.Pairwise (fun a b => key b ≤ key a)) :
    (l.foldl (fun acc x => insertDescBy key x acc) acc).Pairwise
      (fun a b => key b ≤ key a) := by
  induction l generalizing acc with
  | nil => simpa using h
  | cons x xs ih => exact ih (pairwise_insertDescBy key h)

theorem pairwise_sortDescBy {α : Type _} (key : α → ℝ) (l : List α) :
    (sortDescBy key l).Pairwise (fun a b => key b ≤ key a) :=
  pairwise_foldl_insertDescBy key l List.Pairwise.nil

theorem pyTake_sublist {α : Type _} (k : Int) (l : List α) :
    (pyTake k l).Sublist l := by
  rw [pyTake]
  split <;> exact List.take_sublist _ _

theorem length_pyTake_nonneg {α : Type _} {k : Int} (hk : 0 ≤ k) (l : List α) :
    (pyTake k l).length = min k.toNat l.length := by
  rw [pyTake, if_pos hk, List.length_take]

theorem length_pyTake_neg {α : Type _} {k : Int} (hk : k < 0) (l : List α) :
    (pyTake k l).length = l.length - (-k).toNat := by
  rw [pyTake, if_neg (not_le.mpr hk), List.length_take]
  omega

theorem pyTake_zero {α : Type _} (l : List α) : pyTake 0 l = [] := by
  rw [pyTake, if_pos le_rfl]
  rfl

/-! ## Helper lemmas about the normalized-index model -/

theorem length_normalizeRow (v : List ℝ) :
    (PdfRag.normalizeRow v).length = v.length := by
  simp [PdfRag.normalizeRow]

theorem fst_lt_of_mem_enumFrom {α : Type _} :
    ∀ (l : List α) (n : ℕ) (p : ℕ × α), p ∈ l.enumFrom n → p.1 < n + l.length := by
  intro l
  induction l with
  | nil => intro n p h; simp [List.enumFrom] at h
  | cons x xs ih =>
    intro n p h
    rcases List.mem_cons.mp h with rfl | h'
    · simp
    · have := ih (n + 1) p h'
      simp only [List.length_cons]
      omega

theorem mem_scoreAll {vecs : List (List (Option ℝ))} {query : List (Option ℝ)}
    {z : Int × ℝ} (hz : z ∈ PdfRag.scoreAll vecs query) :
    0 ≤ z.1 ∧ z.1.toNat < vecs.length := by
  rcases List.mem_filterMap.mp hz with ⟨p, hp, hfz⟩
  have hlt : p.1 < vecs.length := by
    have := fst_lt_of_mem_enumFrom vecs 0 p (by simpa [List.enum] using hp)
    simpa using this
  cases hdp : PdfRag.optDot p.2 query with
  | none => rw [hdp] at hfz; exact absurd hfz (by simp)
  | some sc =>
    rw [hdp] at hfz
    have hz' : z = ((p.1 : Int), sc) := by simpa using hfz.symm
    subst hz'
    constructor
    · exact Int.ofNat_nonneg p.1
    · simpa using hlt

theorem length_scoreAll_le (vecs : List (List (Option ℝ)))
    (query : List (Option ℝ)) :
    (PdfRag.scoreAll vecs query).length ≤ vecs.length := by
  calc (PdfRag.scoreAll vecs query).length
      ≤ vecs.enum.length := List.length_filterMap_le _ _
    _ = vecs.length := List.enum_length

theorem gatherResults_ok (docs : List PdfRag.DocRec) :
    ∀ (pairs : List (Int × ℝ)),
      (∀ p ∈ pairs, 0 ≤ p.1 → p.1.toNat < docs.length) →
      ∃ res, PdfRag.gatherResults docs pairs = Except.ok res ∧
        res.map Prod.snd =
          (pairs.filter (fun p => decide (0 ≤ p.1))).map Prod.snd := by
  intro pairs
  induction pairs with
  | nil => intro _; exact ⟨[], rfl, rfl⟩
  | cons p rest ih =>
    intro h
    rcases ih (fun q hq => h q (List.mem_cons_of_mem _ hq)) with ⟨res, hok, hmap⟩
    by_cases hp : 0 ≤ p.1
    · have hlt := h p (List.mem_cons_self _ _) hp
      have hget : docs.get? p.1.toNat = some (docs.get ⟨p.1.toNat, hlt⟩) :=
        List.get?_eq_get hlt
      refine ⟨(docs.get ⟨p.1.toNat, hlt⟩, p.2) :: res, ?_, ?_⟩
      · rw [PdfRag.gatherResults, if_pos hp, hget, hok]
      · rw [List.filter_cons, if_pos (by simpa using hp)]
        simpa using hmap
    · refine ⟨res, ?_, ?_⟩
      · rw [PdfRag.gatherResults, if_neg hp]
        exact hok
      · rw [List.filter_cons, if_neg (by simpa using hp)]
        exact hmap

theorem cosine_similarity_checked_eq (q e : List ℝ) (h : e.length = q.length) :
    SimpleRag.cosine_similarity_checked q e =
      Except.ok (SimpleRag.cosine_similarity q e) := by
  have hnp : SimpleRag.npDot q e = Except.ok (dot q e) := by
    rw [SimpleRag.npDot, if_pos h.symm]
  simp only [SimpleRag.cosine_similarity_checked]
  rw [hnp, SimpleRag.cosine_similarity]

theorem simList_ok (q : List ℝ) :
    ∀ (docs : List SimpleRag.Document),
      (∀ d ∈ docs, d.embedding.length = q.length) →
      SimpleRag.simList q docs =
        Except.ok (docs.map
          (fun d => (d, SimpleRag.cosine_similarity q d.embedding))) := by
  intro docs
  induction docs with
  | nil => intro _; rfl
  | cons d ds ih =>
    intro h
    have hd := cosine_similarity_checked_eq q d.embedding
      (h d (List.mem_cons_self _ _))
    have hds := ih (fun x hx => h x (List.mem_cons_of_mem _ hx))
    simp only [SimpleRag.simList]
    rw [hd]
    show (match SimpleRag.simList q ds with
      | Except.error e => Except.error e
      | Except.ok rest =>
        Except.ok ((d, SimpleRag.cosine_similarity q d.embedding) :: rest)) =
      Except.ok ((d, SimpleRag.cosine_similarity q d.embedding) ::
        ds.map (fun x => (x, SimpleRag.cosine_similarity q x.embedding)))
    rw [hds]

theorem searchChecked_eq (s : SimpleRag.VectorStore) (q : List ℝ) (k : Int)
    (h : ∀ d ∈ s.documents, d.embedding.length = q.length) :
    s.searchChecked q k = (Except.ok (s.search q k).1, s) := by
  by_cases hE : s.documents.isEmpty = true
  · simp only [SimpleRag.VectorStore.searchChecked, SimpleRag.VectorStore.search]
    rw [if_pos hE, if_pos hE]
  · simp only [SimpleRag.VectorStore.searchChecked, SimpleRag.VectorStore.search]
    rw [if_neg hE, if_neg hE, simList_ok q s.documents h]

theorem zipWith_mul_comm (a b : List ℝ) :
    List.zipWith (fun x y => x * y) a b = List.zipWith (fun x y => x * y) b a := by
  induction a generalizing b with
  | nil => cases b <;> rfl
  | cons x xs ih =>
    cases b with
    | nil => rfl
    | cons y ys => simp [List.zipWith, mul_comm, ih ys]

theorem dot_comm (a b : List ℝ) : dot a b = dot b a := by
  rw [dot, dot, zipWith_mul_comm]

/-! ## Claim theorems -/

/-- Claim C2: for equal-length float vectors, the exact index's cosine
similarity equals dot(a,b) / (‖a‖·‖b‖) when both norms are nonzero — and
the divisor used there is itself nonzero, so no division by zero ever
happens — while it is exactly 0.0 whenever either norm is zero; the
function is total, so it never raises. -/
theorem C2_cosine_similarity_guarded (a b : List ℝ)
    (hlen : a.length = b.length) :
    (npNorm a ≠ 0 → npNorm b ≠ 0 →
      SimpleRag.cosine_similarity a b = dot a b / (npNorm a * npNorm b) ∧
        npNorm a * npNorm b ≠ 0) ∧
    ((npNorm a = 0 ∨ npNorm b = 0) → SimpleRag.cosine_similarity a b = 0) := by
  constructor
  · intro h1 h2
    rw [SimpleRag.cosine_similarity, if_neg (by tauto)]
    exact ⟨rfl, mul_ne_zero h1 h2⟩
  · intro h
    rw [SimpleRag.cosine_similarity, if_pos h]

/-- Claim C2, witness: the two-sided guarantee evaluated at the concrete
pair of vectors with the single entry one. -/
theorem C2_witness :
    ([(1 : ℝ)].length = [(1 : ℝ)].length) ∧
    ((npNorm [(1 : ℝ)] ≠ 0 → npNorm [(1 : ℝ)] ≠ 0 →
      SimpleRag.cosine_similarity [(1 : ℝ)] [(1 : ℝ)] =
        dot [(1 : ℝ)] [(1 : ℝ)] / (npNorm [(1 : ℝ)] * npNorm [(1 : ℝ)]) ∧
        npNorm [(1 : ℝ)] * npNorm [(1 : ℝ)] ≠ 0) ∧
    ((npNorm [(1 : ℝ)] = 0 ∨ npNorm [(1 : ℝ)] = 0) →
      SimpleRag.cosine_similarity [(1 : ℝ)] [(1 : ℝ)] = 0)) :=
  ⟨rfl, C2_cosine_similarity_guarded [(1 : ℝ)] [(1 : ℝ)] rfl⟩

/-- Claim C9: the exact index's similarity function is symmetric on
equal-length vectors. -/
theorem C9_cosine_similarity_symmetric (a b : List ℝ)
    (hlen : a.length = b.length) :
    SimpleRag.cosine_similarity a b = SimpleRag.cosine_similarity b a := by
  simp only [SimpleRag.cosine_similarity]
  by_cases h1 : npNorm a = 0 <;> by_cases h2 : npNorm b = 0 <;>
    simp [h1, h2, dot_comm a b, mul_comm]

/-- Claim C9, witness: symmetry evaluated at the concrete pair of
two-dimensional unit vectors. -/
theorem C9_witness :
    ([(1 : ℝ), 0].length = [(0 : ℝ), 1].length) ∧
    SimpleRag.cosine_similarity [(1 : ℝ), 0] [(0 : ℝ), 1] =
      SimpleRag.cosine_similarity [(0 : ℝ), 1] [(1 : ℝ), 0] :=
  ⟨rfl, C9_cosine_similarity_symmetric [(1 : ℝ), 0] [(0 : ℝ), 1] rfl⟩

/-- Claim C10: search is read-only on both variants — the state returned
by the call (record list and id counter of the exact store; dimension,
faiss structure and sidecar of the normalized store) equals the state it
was called on, for every query and every top_k. -/
theorem C10_search_leaves_state_unchanged (s1 : SimpleRag.VectorStore)
    (q1 : List ℝ) (k1 : Int) (s2 : PdfRag.VectorStore) (q2 : List ℝ) (k2 : Int) :
    (s1.search q1 k1).2 = s1 ∧ (s2.search q2 k2).2 = s2 := by
  constructor
  · simp only [SimpleRag.VectorStore.search]
    split <;> rfl
  · simp only [PdfRag.VectorStore.search]
    split
    · rfl
    · split
      · rfl
      · split <;> rfl

/-- Claim C5: saving a store and loading the saved directory into any
other store succeeds and yields the saved record sequence and the saved
vector rows unchanged and position-aligned — in particular the same
count. -/
theorem C5_save_load_roundtrip (s t : PdfRag.VectorStore) (fs : PdfRag.FS)
    (p : String) :
    (t.load (s.save fs p) p).1 = none ∧
    (t.load (s.save fs p) p).2.count = s.count ∧
    (t.load (s.save fs p) p).2.documents = s.documents ∧
    (t.load (s.save fs p) p).2.index.vecs = s.index.vecs := by
  simp [PdfRag.VectorStore.load, PdfRag.VectorStore.save, PdfRag.VectorStore.count]

/-- Claim C7, counterexample: the exact index accepts an embedding whose
length differs from the one already stored — both records end up stored
and no error is raised, so insertion of a mismatched-length vector is not
rejected on every variant. -/
theorem C7_counterexample :
    (((SimpleRag.VectorStore.empty.add "a" [1] none).2.add "b" [1, 2]
        none).2.documents.map (fun d => d.embedding.length)) = [1, 2] ∧
    (1 : ℕ) ≠ 2 := by
  exact ⟨rfl, by decide⟩

/-- Claim C7, amended: only the normalized variant validates embedding
length at insert time — its faiss structure rejects a row whose length
differs from the structure's dimension, the call errors and the store is
left unchanged — while the exact variant performs no length check: its add
always appends a record holding the embedding exactly as given. -/
theorem C7_amended_dimension_check (s2 : PdfRag.VectorStore) (t2 : String)
    (e2 : List ℝ) (m2 : Option (List (String × String)))
    (s1 : SimpleRag.VectorStore) (t1 : String) (e1 : List ℝ)
    (m1 : Option (List (String × String)))
    (h : e2.length ≠ s2.index.d) :
    (∃ err, (s2.add t2 e2 m2).1 = Except.error err) ∧
    (s2.add t2 e2 m2).2 = s2 ∧
    (s1.add t1 e1 m1).2.documents.length = s1.documents.length + 1 ∧
    (s1.add t1 e1 m1).2.documents.map (fun d => d.embedding) =
      s1.documents.map (fun d => d.embedding) ++ [e1] := by
  have haddRows : s2.index.addRows [PdfRag.normalizeRow e2] =
      Except.error "IndexFlatIP.add: vector dimension mismatch" := by
    have hnot : ¬ ∀ r ∈ [PdfRag.normalizeRow e2], r.length = s2.index.d := by
      intro hall
      have hlen := hall (PdfRag.normalizeRow e2) (by simp)
      rw [length_normalizeRow] at hlen
      exact h hlen
    rw [PdfRag.IndexFlatIP.addRows, if_neg hnot]
  have hadd : s2.add t2 e2 m2 =
      (Except.error "IndexFlatIP.add: vector dimension mismatch", s2) := by
    simp only [PdfRag.VectorStore.add]
    rw [haddRows]
  refine ⟨⟨_, by rw [hadd]⟩, by rw [hadd], ?_, ?_⟩
  · simp [SimpleRag.VectorStore.add]
  · simp [SimpleRag.VectorStore.add]

/-- Claim C7, witness: the amended statement at a concrete mismatched
insertion on each variant — a one-entry row against a dimension-two
normalized store, and a two-entry row appended to an empty exact store. -/
theorem C7_witness :
    ([(1 : ℝ)].length ≠ (PdfRag.VectorStore.mk0 2).index.d) ∧
    ((∃ err, ((PdfRag.VectorStore.mk0 2).add "x" [(1 : ℝ)] none).1 =
        Except.error err) ∧
     ((PdfRag.VectorStore.mk0 2).add "x" [(1 : ℝ)] none).2 =
        PdfRag.VectorStore.mk0 2 ∧
     (SimpleRag.VectorStore.empty.add "y" [(1 : ℝ), 2] none).2.documents.length =
        SimpleRag.VectorStore.empty.documents.length + 1 ∧
     (SimpleRag.VectorStore.empty.add "y" [(1 : ℝ), 2] none).2.documents.map
        (fun d => d.embedding) =
       SimpleRag.VectorStore.empty.documents.map (fun d => d.embedding) ++
         [[(1 : ℝ), 2]]) :=
  ⟨by decide,
   C7_amended_dimension_check (PdfRag.VectorStore.mk0 2) "x" [(1 : ℝ)] none
     SimpleRag.VectorStore.empty "y" [(1 : ℝ), 2] none (by decide)⟩

/-- A concrete exact store holding two one-dimensional documents, used to
exhibit the slice behavior of a negative top_k. -/
def c8State : SimpleRag.VectorStore :=
  { documents :=
      [{ id := 0, text := "a", embedding := [1], metadata := [] },
       { id := 1, text := "b", embedding := [0], metadata := [] }],
    next_id := 2 }

/-- Claim C8, counterexample: on a store with two documents, search with
top_k = -1 returns a nonempty result list — Python slicing drops only the
last element — not the empty list the claim requires for every negative
top_k. -/
theorem C8_counterexample : (c8State.search [1] (-1)).1 ≠ [] := by
  have hres : (c8State.search [1] (-1)).1 =
      pyTake (-1) (sortDescBy (fun p => p.2)
        (c8State.documents.map
          (fun doc => (doc, SimpleRag.cosine_similarity [1] doc.embedding)))) := rfl
  have hlen : (c8State.search [1] (-1)).1.length = 1 := by
    rw [hres, length_pyTake_neg (by decide), length_sortDescBy, List.length_map]
    rfl
  intro h
  rw [h] at hlen
  simp at hlen

/-- Claim C8, amended: on the exact index — stated through the checked
search on stores whose embeddings match the query's length, since the
similarity loop runs before any slicing and a mismatched query raises
instead of returning a list — a top_k of zero yields the empty list, while
a negative top_k follows Python slice semantics and returns all but the
last top_k-many of the descending-sorted results, nonempty whenever the
magnitude of top_k is less than the record count.  On the normalized index
an empty index yields the empty list for every top_k, while on a nonempty
index a non-positive top_k is forwarded to the faiss structure, which
rejects it with an error rather than returning an empty list. -/
theorem C8_amended_degenerate_topk
    (s1 s1' : SimpleRag.VectorStore) (q1 q1' : List ℝ) (kneg : Int)
    (s2e s2n : PdfRag.VectorStore) (q2 q2' : List ℝ) (k0 k0' : Int)
    (hkneg : kneg < 0)
    (hlen1 : ∀ d ∈ s1.documents, d.embedding.length = q1.length)
    (hlen1' : ∀ d ∈ s1'.documents, d.embedding.length = q1'.length)
    (h2e : s2e.index.ntotal = 0)
    (h2n : s2n.index.ntotal ≠ 0) (hk0 : k0' ≤ 0) :
    (s1.searchChecked q1 0).1 = Except.ok [] ∧
    (∃ r, (s1'.searchChecked q1' kneg).1 = Except.ok r ∧
      r.length = s1'.documents.length - (-kneg).toNat) ∧
    (s2e.search q2 k0).1 = Except.ok [] ∧
    ∃ err, (s2n.search q2' k0').1 = Except.error err := by
  refine ⟨?_, ?_, ?_, ?_⟩
  · have h1 : (s1.search q1 0).1 = [] := by
      by_cases hE : s1.documents.isEmpty = true
      · simp [SimpleRag.VectorStore.search, hE]
      · simp [SimpleRag.VectorStore.search, hE, pyTake_zero]
    rw [searchChecked_eq s1 q1 0 hlen1, h1]
  · refine ⟨(s1'.search q1' kneg).1, ?_, ?_⟩
    · rw [searchChecked_eq s1' q1' kneg hlen1']
    · by_cases hE : s1'.documents.isEmpty = true
      · have hnil : s1'.documents = [] := by
          cases hd : s1'.documents with
          | nil => rfl
          | cons a l => rw [hd] at hE; simp at hE
        simp [SimpleRag.VectorStore.search, hE, hnil]
      · simp only [SimpleRag.VectorStore.search]
        rw [if_neg hE]
        show (pyTake kneg (sortDescBy (fun p : SimpleRag.Document × ℝ => p.2)
          (s1'.documents.map
            (fun doc => (doc, SimpleRag.cosine_similarity q1' doc.embedding))))).length = _
        rw [length_pyTake_neg hkneg, length_sortDescBy, List.length_map]
  · simp [PdfRag.VectorStore.search, h2e]
  · refine ⟨"IndexFlatIP.search: k must be positive", ?_⟩
    have hsr : s2n.index.searchRow (PdfRag.normalizeRow q2')
        (min k0' (s2n.index.ntotal : Int)) =
        Except.error "IndexFlatIP.search: k must be positive" := by
      rw [PdfRag.IndexFlatIP.searchRow, if_pos (le_trans (min_le_left _ _) hk0)]
    simp only [PdfRag.VectorStore.search]
    rw [if_neg h2n, hsr]

/-- A concrete normalized store holding one row, used as the nonempty
store of the C8 witness. -/
def c8Pdf : PdfRag.VectorStore :=
  { dimension := 1, index := { d := 1, vecs := [[some 1]] },
    documents := [{ text := "a", metadata := [] }] }

/-- Claim C8, witness: the amended statement at concrete stores — top_k 0
and top_k -1 on exact stores whose embeddings match the queries, any
top_k on an empty normalized store, and top_k 0 on a nonempty normalized
store. -/
theorem C8_witness :
    ((-1 : Int) < 0) ∧
    (∀ d ∈ SimpleRag.VectorStore.empty.documents,
      d.embedding.length = ([] : List ℝ).length) ∧
    (∀ d ∈ c8State.documents, d.embedding.length = [(1 : ℝ)].length) ∧
    ((PdfRag.VectorStore.mk0 1).index.ntotal = 0) ∧
    (c8Pdf.index.ntotal ≠ 0) ∧ ((0 : Int) ≤ 0) ∧
    ((SimpleRag.VectorStore.empty.searchChecked [] 0).1 = Except.ok [] ∧
     (∃ r, (c8State.searchChecked [1] (-1)).1 = Except.ok r ∧
       r.length = c8State.documents.length - (-(-1 : Int)).toNat) ∧
     ((PdfRag.VectorStore.mk0 1).search [] 5).1 = Except.ok [] ∧
     ∃ err, (c8Pdf.search [0] 0).1 = Except.error err) :=
  ⟨by decide,
   by intro d hd; simp [SimpleRag.VectorStore.empty] at hd,
   by intro d hd; simp [c8State] at hd; rcases hd with rfl | rfl <;> rfl,
   rfl, by decide, by decide,
   C8_amended_degenerate_topk SimpleRag.VectorStore.empty c8State [] [1] (-1)
     (PdfRag.VectorStore.mk0 1) c8Pdf [] [0] 5 0
     (by decide)
     (by intro d hd; simp [SimpleRag.VectorStore.empty] at hd)
     (by intro d hd; simp [c8State] at hd; rcases hd with rfl | rfl <;> rfl)
     rfl (by decide) (by decide)⟩

/-- Claim C3, counterexample: adding the zero vector to a dimension-two
normalized store stores a row of non-finite (NaN) values — numpy evaluates
the componentwise zero-divided-by-zero to NaN and raises nothing — which
is not the all-zero row the claim requires. -/
theorem C3_counterexample :
    ((PdfRag.VectorStore.mk0 2).add "zero" [0, 0] none).2.index.vecs =
      [[none, none]] ∧
    [[(none : Option ℝ), none]] ≠ [[some 0, some 0]] := by
  have hnorm : npNorm [(0 : ℝ), 0] = 0 := by simp [npNorm]
  have hrow : PdfRag.normalizeRow [(0 : ℝ), 0] = [none, none] := by
    simp [PdfRag.normalizeRow, PdfRag.npDiv, hnorm]
  have haddRows : (PdfRag.VectorStore.mk0 2).index.addRows
      [PdfRag.normalizeRow [(0 : ℝ), 0]] =
      Except.ok { (PdfRag.VectorStore.mk0 2).index with
        vecs := (PdfRag.VectorStore.mk0 2).index.vecs ++
          [PdfRag.normalizeRow [(0 : ℝ), 0]] } := by
    rw [PdfRag.IndexFlatIP.addRows, if_pos]
    intro r hr
    rw [List.mem_singleton] at hr
    subst hr
    rw [length_normalizeRow]
    rfl
  constructor
  · simp only [PdfRag.VectorStore.add]
    rw [haddRows]
    simp [hrow, PdfRag.VectorStore.mk0]
  · simp

/-- Claim C3, amended: on a row of the store's dimension, add always
succeeds and appends the normalized row to the faiss structure; that row
is the componentwise quotient by the norm when the norm is nonzero, but
when the norm is zero it is a row of non-finite (NaN) values of the same
length — numpy's zero-by-zero division — not the all-zero row. -/
theorem C3_amended_normalization (s : PdfRag.VectorStore) (t : String)
    (v : List ℝ) (m : Option (List (String × String)))
    (hd : v.length = s.index.d) :
    (s.add t v m).1 = Except.ok s.documents.length ∧
    (s.add t v m).2.index.vecs = s.index.vecs ++ [PdfRag.normalizeRow v] ∧
    (npNorm v ≠ 0 →
      PdfRag.normalizeRow v = v.map (fun x => some (x / npNorm v))) ∧
    (npNorm v = 0 → PdfRag.normalizeRow v = v.map (fun _ => none)) := by
  have haddRows : s.index.addRows [PdfRag.normalizeRow v] =
      Except.ok { s.index with vecs := s.index.vecs ++ [PdfRag.normalizeRow v] } := by
    rw [PdfRag.IndexFlatIP.addRows, if_pos]
    intro r hr
    rw [List.mem_singleton] at hr
    subst hr
    rw [length_normalizeRow, hd]
  refine ⟨?_, ?_, ?_, ?_⟩
  · simp only [PdfRag.VectorStore.add]
    rw [haddRows]
  · simp only [PdfRag.VectorStore.add]
    rw [haddRows]
  · intro hn
    simp [PdfRag.normalizeRow, PdfRag.npDiv, hn]
  · intro hn
    simp [PdfRag.normalizeRow, PdfRag.npDiv, hn]

/-- Claim C3, witness: the amended statement at the concrete insertion of
the two-dimensional unit row into a fresh dimension-two store. -/
theorem C3_witness :
    ([(1 : ℝ), 0].length = (PdfRag.VectorStore.mk0 2).index.d) ∧
    (((PdfRag.VectorStore.mk0 2).add "t" [(1 : ℝ), 0] none).1 =
        Except.ok (PdfRag.VectorStore.mk0 2).documents.length ∧
     ((PdfRag.VectorStore.mk0 2).add "t" [(1 : ℝ), 0] none).2.index.vecs =
        (PdfRag.VectorStore.mk0 2).index.vecs ++
          [PdfRag.normalizeRow [(1 : ℝ), 0]] ∧
     (npNorm [(1 : ℝ), 0] ≠ 0 →
       PdfRag.normalizeRow [(1 : ℝ), 0] =
         [(1 : ℝ), 0].map (fun x => some (x / npNorm [(1 : ℝ), 0]))) ∧
     (npNorm [(1 : ℝ), 0] = 0 →
       PdfRag.normalizeRow [(1 : ℝ), 0] = [(1 : ℝ), 0].map (fun _ => none))) :=
  ⟨rfl, C3_amended_normalization (PdfRag.VectorStore.mk0 2) "t" [(1 : ℝ), 0] none rfl⟩

/-- The add_batch call of the C4 failing input: five texts with five
well-formed rows but only two metadata entries. -/
noncomputable def c4Call : Except String Unit × PdfRag.VectorStore :=
  (PdfRag.VectorStore.mk0 2).add_batch ["t1", "t2", "t3", "t4", "t5"]
    [[1, 0], [1, 0], [1, 0], [1, 0], [1, 0]]
    (some [[("k", "v1")], [("k", "v2")]])

/-- Claim C4, failing-input evaluation: the call raises nothing and adds
five rows to the faiss structure, but appends only two sidecar records —
Python's zip truncates at the shorter metadatas list — so the last three
texts are dropped instead of receiving empty metadata, and the sidecar
desyncs from the vector structure the search method indexes into. -/
theorem C4_add_batch_truncates :
    c4Call.1 = Except.ok () ∧ c4Call.2.documents.length = 2 ∧
    c4Call.2.index.ntotal = 5 := by
  have haddRows : (PdfRag.VectorStore.mk0 2).index.addRows
      (List.map PdfRag.normalizeRow
        [[(1 : ℝ), 0], [(1 : ℝ), 0], [(1 : ℝ), 0], [(1 : ℝ), 0], [(1 : ℝ), 0]]) =
      Except.ok { (PdfRag.VectorStore.mk0 2).index with
        vecs := (PdfRag.VectorStore.mk0 2).index.vecs ++
          List.map PdfRag.normalizeRow
            [[(1 : ℝ), 0], [(1 : ℝ), 0], [(1 : ℝ), 0], [(1 : ℝ), 0], [(1 : ℝ), 0]] } := by
    rw [PdfRag.IndexFlatIP.addRows, if_pos]
    intro r hr
    rw [List.mem_map] at hr
    rcases hr with ⟨v, hv, rfl⟩
    rw [length_normalizeRow]
    have hv' : v = [(1 : ℝ), 0] := by simpa using hv
    rw [hv']
    rfl
  refine ⟨?_, ?_, ?_⟩
  · simp only [c4Call, PdfRag.VectorStore.add_batch]
    rw [haddRows]
  · simp only [c4Call, PdfRag.VectorStore.add_batch]
    rw [haddRows]
    rfl
  · simp only [c4Call, PdfRag.VectorStore.add_batch]
    rw [haddRows]
    rfl

/-- A concrete normalized store with one row and one record, the starting
state of the C6 failing input. -/
def c6State : PdfRag.VectorStore :=
  { dimension := 2, index := { d := 2, vecs := [[some 1, some 0]] },
    documents := [{ text := "old", metadata := [] }] }

/-- A file system on which every directory holds a binary index artifact
(an empty dimension-two structure) but no documents.json sidecar. -/
def c6FS : PdfRag.FS :=
  fun _ => { indexFile := some { d := 2, vecs := [] }, docsFile := none }

/-- Claim C6, failing-input evaluation: loading a directory whose binary
artifact exists but whose sidecar is missing raises the not-found error,
yet the faiss structure has already been replaced — the store's row is
gone while the old documents remain — so the in-memory state is not left
unchanged. -/
theorem C6_load_partial_replacement :
    (c6State.load c6FS "store").1.isSome = true ∧
    (c6State.load c6FS "store").2.index.vecs = [] ∧
    (c6State.load c6FS "store").2.documents = c6State.documents ∧
    c6State.index.vecs ≠ [] := by
  refine ⟨rfl, rfl, rfl, ?_⟩
  simp [c6State]

theorem filter_padTo (l : List (Int × ℝ)) (n : ℕ) (hl : ∀ a ∈ l, 0 ≤ a.1) :
    (PdfRag.padTo n l).filter (fun p => decide (0 ≤ p.1)) = l := by
  rw [PdfRag.padTo, List.filter_append]
  have h2 : ∀ (m : ℕ), (List.replicate m ((-1 : Int), (0 : ℝ))).filter
      (fun p => decide (0 ≤ p.1)) = [] := by
    intro m
    induction m with
    | zero => rfl
    | succ m2 ih => simp [List.replicate_succ, List.filter_cons, ih]
  rw [List.filter_eq_self.mpr (fun a ha => by simpa using hl a ha), h2,
    List.append_nil]

theorem pdf_search_ok (s : PdfRag.VectorStore) (q : List ℝ) (tk : Int)
    (h0 : ¬ s.index.ntotal = 0) (hk : 0 < tk) (hwf : s.WF)
    (hq : q.length = s.dimension) :
    ∃ res, s.search q tk = (Except.ok res, s) ∧
      res.Pairwise (fun a b => b.2 ≤ a.2) ∧
      res.length ≤ min tk.toNat s.count := by
  obtain ⟨hwd, hcount, hrows⟩ := hwf
  have hkmin : ¬ (min tk (s.index.ntotal : Int) ≤ 0) := by
    rw [not_le]
    refine lt_min hk ?_
    exact_mod_cast Nat.pos_of_ne_zero h0
  have hqlen : ¬ ((PdfRag.normalizeRow q).length ≠ s.index.d) := by
    intro hne
    exact hne (by rw [length_normalizeRow, hq, hwd])
  have hsr : s.index.searchRow (PdfRag.normalizeRow q)
      (min tk (s.index.ntotal : Int)) =
      Except.ok (PdfRag.padTo (min tk (s.index.ntotal : Int)).toNat
        ((sortDescBy (fun p : Int × ℝ => p.2)
          (PdfRag.scoreAll s.index.vecs (PdfRag.normalizeRow q))).take
          (min tk (s.index.ntotal : Int)).toNat)) := by
    rw [PdfRag.IndexFlatIP.searchRow, if_neg hkmin, if_neg hqlen]
  have htopmem : ∀ p ∈ (sortDescBy (fun p : Int × ℝ => p.2)
      (PdfRag.scoreAll s.index.vecs (PdfRag.normalizeRow q))).take
      (min tk (s.index.ntotal : Int)).toNat,
      p ∈ PdfRag.scoreAll s.index.vecs (PdfRag.normalizeRow q) := by
    intro p hp
    exact (mem_sortDescBy _ _).mp (List.take_subset _ _ hp)
  have hbound : ∀ p ∈ PdfRag.padTo (min tk (s.index.ntotal : Int)).toNat
      ((sortDescBy (fun p : Int × ℝ => p.2)
        (PdfRag.scoreAll s.index.vecs (PdfRag.normalizeRow q))).take
        (min tk (s.index.ntotal : Int)).toNat),
      0 ≤ p.1 → p.1.toNat < s.documents.length := by
    intro p hp hp0
    rw [PdfRag.padTo] at hp
    rcases List.mem_append.mp hp with hp | hp
    · have hm := mem_scoreAll (htopmem p hp)
      rw [← hcount]
      exact hm.2
    · rw [List.eq_of_mem_replicate hp] at hp0
      exact absurd hp0 (by decide)
  obtain ⟨res, hgather, hmap⟩ := gatherResults_ok s.documents _ hbound
  have hmap2 : res.map Prod.snd =
      ((sortDescBy (fun p : Int × ℝ => p.2)
        (PdfRag.scoreAll s.index.vecs (PdfRag.normalizeRow q))).take
        (min tk (s.index.ntotal : Int)).toNat).map Prod.snd := by
    rw [hmap, filter_padTo _ _ (fun a ha => (mem_scoreAll (htopmem a ha)).1)]
  refine ⟨res, ?_, ?_, ?_⟩
  · simp only [PdfRag.VectorStore.search]
    rw [if_neg h0, hsr]
    show (match PdfRag.gatherResults s.documents
        (PdfRag.padTo (min tk (s.index.ntotal : Int)).toNat
          ((sortDescBy (fun p : Int × ℝ => p.2)
            (PdfRag.scoreAll s.index.vecs (PdfRag.normalizeRow q))).take
            (min tk (s.index.ntotal : Int)).toNat)) with
      | Except.error e => (Except.error e, s)
      | Except.ok results => (Except.ok results, s)) = (Except.ok res, s)
    rw [hgather]
  · have hst : ((sortDescBy (fun p : Int × ℝ => p.2)
        (PdfRag.scoreAll s.index.vecs (PdfRag.normalizeRow q))).take
        (min tk (s.index.ntotal : Int)).toNat).Pairwise
        (fun a b => b.2 ≤ a.2) :=
      List.Pairwise.sublist (List.take_sublist _ _) (pairwise_sortDescBy _ _)
    have hms : (res.map Prod.snd).Pairwise (fun x y : ℝ => y ≤ x) := by
      rw [hmap2]
      exact List.pairwise_map.mpr hst
    exact List.pairwise_map.mp hms
  · have hlen : res.length =
        ((sortDescBy (fun p : Int × ℝ => p.2)
          (PdfRag.scoreAll s.index.vecs (PdfRag.normalizeRow q))).take
          (min tk (s.index.ntotal : Int)).toNat).length := by
      have := congrArg List.length hmap2
      simpa using this
    rw [hlen]
    refine le_min ?_ ?_
    · exact le_trans (List.length_take_le _ _)
        (Int.toNat_le_toNat (min_le_left _ _))
    · calc ((sortDescBy (fun p : Int × ℝ => p.2)
            (PdfRag.scoreAll s.index.vecs (PdfRag.normalizeRow q))).take
            (min tk (s.index.ntotal : Int)).toNat).length
          ≤ (sortDescBy (fun p : Int × ℝ => p.2)
              (PdfRag.scoreAll s.index.vecs (PdfRag.normalizeRow q))).length := by
            rw [List.length_take]
            exact min_le_right _ _
        _ = (PdfRag.scoreAll s.index.vecs (PdfRag.normalizeRow q)).length :=
            length_sortDescBy _ _
        _ ≤ s.index.vecs.length := length_scoreAll_le _ _
        _ = s.count := hcount

/-- A concrete exact store whose single embedding has the length of the
C1 witness query. -/
def c1Store : SimpleRag.VectorStore :=
  { documents := [{ id := 0, text := "a", embedding := [1], metadata := [] }],
    next_id := 1 }

/-- A concrete exact store holding a two-entry embedding, mismatched
against the one-entry query of the C1 counterexample. -/
def c1BadStore : SimpleRag.VectorStore :=
  { documents := [{ id := 0, text := "a", embedding := [1, 2], metadata := [] }],
    next_id := 1 }

/-- Claim C1, counterexample: the exact index's add validates nothing, so
a store whose stored embedding length differs from a query's is reachable;
there the similarity loop's np.dot raises a ValueError and search returns
no result list at all, refuting the claim's guarantee — for every state
and every query — of an error-free sorted list. -/
theorem C1_counterexample :
    (c1BadStore.searchChecked [(1 : ℝ)] 3).1 =
      Except.error "ValueError: shapes not aligned" ∧
    ∀ r : List (SimpleRag.Document × ℝ),
      (c1BadStore.searchChecked [(1 : ℝ)] 3).1 ≠ Except.ok r := by
  refine ⟨rfl, ?_⟩
  intro r hr
  rw [show (c1BadStore.searchChecked [(1 : ℝ)] 3).1 =
    Except.error "ValueError: shapes not aligned" from rfl] at hr
  exact Except.noConfusion hr

/-- Claim C1, amended: when every stored embedding has the query's length
— a genuine restriction, since the exact variant validates nothing at
insert time (see the counterexample) — the checked exact search returns
without error a list of record-score pairs sorted by descending score
whose length is at most min(top_k, record count), empty on an empty
store; the normalized variant does the same on a well-formed store with a
query of its dimension.  Stated for a positive top_k; non-positive values
are the subject of claim C8. -/
theorem C1_amended_search_sorted_and_bounded
    (s1 : SimpleRag.VectorStore) (q1 : List ℝ)
    (s2 : PdfRag.VectorStore) (q2 : List ℝ) (k : Int)
    (hk : 0 < k)
    (hlen1 : ∀ d ∈ s1.documents, d.embedding.length = q1.length)
    (hwf : s2.WF) (hq : q2.length = s2.dimension) :
    (∃ r1, (s1.searchChecked q1 k).1 = Except.ok r1 ∧
      r1.Pairwise (fun a b => b.2 ≤ a.2) ∧
      r1.length ≤ min k.toNat s1.documents.length ∧
      (s1.documents = [] → r1 = [])) ∧
    (∃ r, (s2.search q2 k).1 = Except.ok r ∧
      r.Pairwise (fun a b => b.2 ≤ a.2) ∧
      r.length ≤ min k.toNat s2.count ∧
      (s2.count = 0 → r = [])) := by
  constructor
  · have hfacts : (s1.search q1 k).1.Pairwise (fun a b => b.2 ≤ a.2) ∧
        (s1.search q1 k).1.length ≤ min k.toNat s1.documents.length ∧
        (s1.documents = [] → (s1.search q1 k).1 = []) := by
      by_cases hE : s1.documents.isEmpty = true
      · refine ⟨?_, ?_, ?_⟩
        · simp [SimpleRag.VectorStore.search, hE]
        · simp [SimpleRag.VectorStore.search, hE]
        · intro _
          simp [SimpleRag.VectorStore.search, hE]
      · have hres : (s1.search q1 k).1 =
            pyTake k (sortDescBy (fun p : SimpleRag.Document × ℝ => p.2)
              (s1.documents.map
                (fun doc => (doc, SimpleRag.cosine_similarity q1 doc.embedding)))) := by
          simp only [SimpleRag.VectorStore.search]
          rw [if_neg hE]
        refine ⟨?_, ?_, ?_⟩
        · rw [hres]
          exact List.Pairwise.sublist (pyTake_sublist _ _) (pairwise_sortDescBy _ _)
        · rw [hres, length_pyTake_nonneg (le_of_lt hk), length_sortDescBy,
            List.length_map]
        · intro hnil
          rw [hnil] at hE
          exact absurd rfl hE
    refine ⟨(s1.search q1 k).1, ?_, hfacts.1, hfacts.2.1, hfacts.2.2⟩
    rw [searchChecked_eq s1 q1 k hlen1]
  · by_cases h0 : s2.index.ntotal = 0
    · refine ⟨[], ?_, ?_, ?_, ?_⟩
      · simp [PdfRag.VectorStore.search, h0]
      · simp
      · simp
      · intro _
        rfl
    · obtain ⟨res, hsearch, hsorted, hlen⟩ := pdf_search_ok s2 q2 k h0 hk hwf hq
      refine ⟨res, ?_, hsorted, hlen, ?_⟩
      · rw [hsearch]
      · intro hc
        obtain ⟨hwd, hcount, hrows⟩ := hwf
        exact absurd (hcount.trans hc) h0

/-- Claim C1, witness: the amended guarantee at a one-document exact store
matching the query's length and a fresh dimension-one normalized store,
with top_k one. -/
theorem C1_witness :
    (0 < (1 : Int)) ∧
    (∀ d ∈ c1Store.documents, d.embedding.length = [(1 : ℝ)].length) ∧
    (PdfRag.VectorStore.mk0 1).WF ∧
    ([(0 : ℝ)].length = (PdfRag.VectorStore.mk0 1).dimension) ∧
    ((∃ r1, (c1Store.searchChecked [(1 : ℝ)] 1).1 = Except.ok r1 ∧
        r1.Pairwise (fun a b => b.2 ≤ a.2) ∧
        r1.length ≤ min (1 : Int).toNat c1Store.documents.length ∧
        (c1Store.documents = [] → r1 = [])) ∧
     (∃ r, ((PdfRag.VectorStore.mk0 1).search [0] 1).1 = Except.ok r ∧
       r.Pairwise (fun a b => b.2 ≤ a.2) ∧
       r.length ≤ min (1 : Int).toNat (PdfRag.VectorStore.mk0 1).count ∧
       ((PdfRag.VectorStore.mk0 1).count = 0 → r = []))) :=
  ⟨by decide,
   by intro d hd; simp [c1Store] at hd; subst hd; rfl,
   ⟨rfl, rfl, by intro r hr; simp [PdfRag.VectorStore.mk0] at hr⟩, rfl,
   C1_amended_search_sorted_and_bounded c1Store [(1 : ℝ)]
     (PdfRag.VectorStore.mk0 1) [0] 1 (by decide)
     (by intro d hd; simp [c1Store] at hd; subst hd; rfl)
     ⟨rfl, rfl, by intro r hr; simp [PdfRag.VectorStore.mk0] at hr⟩ rfl⟩
